import Mathlib

/-!
Verification of the dbt-microservice configuration resolution engine.

This file gives a shallow embedding, in Lean 4, of the configuration
resolution code of the repository (the provider merge algorithm, the
schema registry, the per-provider extraction functions and the
type-coercion stage), and proves or refutes the frozen claims about it.

Python dictionaries are modelled as association lists (`PyDict`);
`dict.update` is modelled by `dictUpdate`, which replaces the values of
existing keys in place and appends new keys, matching CPython semantics.
Python sets are modelled as `Finset String`.  External data (the schema
directory, the default-allowlist directory, the process environment and
the filesystem) are passed as explicit parameters, mirroring the spec
statement that these are data sources external to the engine.

The built-in `String` functions of Lean (`trim`, `toLower`, `splitOn`,
...) are defined by well-founded recursion on byte positions and do not
reduce inside the kernel, so the Python string primitives are modelled
by structurally recursive functions over the character list of a
`String`.
-/

set_option autoImplicit false

/-- A Python dict with `String` keys, as an association list in insertion
order.  Lookup returns the first binding of a key. -/
abbrev PyDict (α : Type) := List (String × α)

/-- Lookup of a key in a `PyDict`: value of the first binding, if any. -/
def alookup {α : Type} (k : String) : PyDict α → Option α
  | [] => none
  | p :: rest => if p.1 = k then some p.2 else alookup k rest

/-- Left-biased choice on `Option`, modelling a value overriding a
fallback. -/
def oOr {α : Type} : Option α → Option α → Option α
  | some v, _ => some v
  | none, b => b

/-- Decidable equality for `Except`, used to evaluate the models on
concrete inputs. -/
instance exceptDecEq {ε α : Type} [DecidableEq ε] [DecidableEq α] :
    DecidableEq (Except ε α)
  | .ok a, .ok b =>
    if h : a = b then .isTrue (by rw [h]) else
      .isFalse (by intro hc; cases hc; exact h rfl)
  | .error e, .error f =>
    if h : e = f then .isTrue (by rw [h]) else
      .isFalse (by intro hc; cases hc; exact h rfl)
  | .ok _, .error _ => .isFalse (by intro hc; cases hc)
  | .error _, .ok _ => .isFalse (by intro hc; cases hc)

/-- Model of CPython `d.update(u)` for string-keyed dicts: keys already in
`d` keep their position and receive the value from `u` when `u` binds
them; keys of `u` absent from `d` are appended in order. -/
def dictUpdate {α : Type} (d u : PyDict α) : PyDict α :=
  (d.map (fun p => (p.1, (alookup p.1 u).getD p.2)))
    ++ u.filter (fun q => (alookup q.1 d).isNone)

/-!
## The resolver per-attribute merge

Model of `DbtConfig._load_attribute` (src/app/dbt/config/config.py,
lines 80-97).  The source iterates over the ordered provider list,
calls the attribute method of each provider and, whenever the returned
value is not `None`, merges it into the accumulator with
`value.update(provider_value)`.  Here the list of per-provider results is
passed directly (each entry `none` models a provider returning `None`,
`some d` a provider returning the dict `d`). -/
def loadAttribute {α : Type} (results : List (Option (PyDict α))) : PyDict α :=
  results.foldl
    (fun value providerValue =>
      match providerValue with
      | some pv => dictUpdate value pv
      | none => value)
    []

/-!
## String utilities
-/

/-- Python `str.lower()` (ASCII). -/
def pyLower (s : String) : String :=
  ⟨s.data.map Char.toLower⟩

/-- Python `str.upper()` (ASCII). -/
def pyUpper (s : String) : String :=
  ⟨s.data.map Char.toUpper⟩

/-- Python `str.strip()` with no argument: removes leading and trailing
whitespace. -/
def pyStrip (s : String) : String :=
  ⟨((s.data.dropWhile Char.isWhitespace).reverse.dropWhile
      Char.isWhitespace).reverse⟩

/-- Python `s.startswith(pat)`. -/
def pyStartsWith (s pat : String) : Bool :=
  pat.data.isPrefixOf s.data

/-- Python slicing `s[n:]` (by character count). -/
def pyDrop (s : String) (n : Nat) : String :=
  ⟨s.data.drop n⟩

/-- Python `len(s)` (in characters). -/
def pyLen (s : String) : Nat :=
  s.data.length

def occursInAux (pat : List Char) : List Char → Bool
  | [] => pat.isEmpty
  | c :: rest => pat.isPrefixOf (c :: rest) || occursInAux pat rest

/-- Python substring test `pat in s`. -/
def strContains (s pat : String) : Bool :=
  occursInAux pat.data s.data

def splitCharAux (sep : Char) : List Char → List (List Char)
  | [] => [[]]
  | c :: rest =>
    let parts := splitCharAux sep rest
    if c = sep then [] :: parts
    else
      match parts with
      | [] => [[c]]
      | part :: tail => (c :: part) :: tail

/-- Python `s.split(sep)` for a one-character separator `sep`: the parts
between the separators, keeping empty parts. -/
def pySplitChar (s : String) (sep : Char) : List String :=
  (splitCharAux sep s.data).map (fun cs => ⟨cs⟩)

/-- Modelled from the spec: the external `convert_case.snake_case` on the
lowercase kebab-case / snake_case inputs this code base feeds it, where
it replaces hyphens by underscores (camel-case splitting never arises on
those inputs).  The spec lists the CaseConverter as an external
collaborator that is not itself specified. -/
def snakeCaseConv (s : String) : String :=
  ⟨s.data.map (fun c => if c = '-' then '_' else c)⟩

def isLowerAlpha (c : Char) : Bool :=
  'a' ≤ c && c ≤ 'z'

def isDigitChar (c : Char) : Bool :=
  '0' ≤ c && c ≤ '9'

/-!
## BoolParser (src/app/utils/bool.py)
-/

def boolTruthies : List String := ["true", "yes", "1", "on"]

def boolFalsies : List String := ["false", "no", "0", "off"]

/-- `BoolParser.valid_values` (src/app/utils/bool.py, lines 11-17). -/
def boolValidValues : List String := boolTruthies ++ boolFalsies

/-- Model of `BoolParser.parse` (src/app/utils/bool.py, lines 20-40).
`none` models the Python `value is None` case; a parse failure models the
`ValueError(value)` raise, carrying the offending value. -/
def boolParse (value : Option String) (default : Bool) : Except String Bool :=
  match value with
  | none => .ok default
  | some v =>
    let strValue := pyLower (pyStrip v)
    if strValue ∈ boolValidValues then
      .ok (decide (strValue ∈ boolTruthies))
    else
      .error v

/-!
## Verb discovery (DefaultsConfigProvider.available_verbs,
src/app/dbt/config/providers/defaults/__init__.py, lines 15-27)

The directory contents (stems of the `dbt-*.yml` files with the `dbt-`
stripped, as Python sets) are external data and are passed in as
`Finset String`, in the order the source iterates the directories:
the default-allowlist directory first, then the schema directory.
-/

/-- Model of `DefaultsConfigProvider.available_verbs`: starts from the
empty set and, for each directory, replaces the accumulator by the
directory verbs when the accumulator is empty, then intersects. -/
def available_verbs (dirVerbs : List (Finset String)) : Finset String :=
  dirVerbs.foldl
    (fun acc dirAvailable =>
      (if acc = ∅ then dirAvailable else acc) ∩ dirAvailable)
    ∅

/-- Model of the older sibling `DbtConfig._load_available_verbs`
(src/app/dbt/config.py, lines 535-544), which uses a `None` sentinel and
computes the true intersection. -/
def loadAvailableVerbs (dirVerbs : List (Finset String)) : Option (Finset String) :=
  dirVerbs.foldl
    (fun acc dirAvailable =>
      match acc with
      | none => some dirAvailable
      | some verbs => some (verbs ∩ dirAvailable))
    none

/-!
## Flag-availability validation
(DbtFlagsSchema.validate_flag_availability,
src/app/dbt/config/jsonschema/__init__.py, lines 85-133)
-/

/-- Model of `DbtFlagsSchema.validate_flag_availability`.  `available`
models `get_available_flags(verb)` for the queried scope (the schema
files it is read from are external data).  `flagKeys` models
`flags.keys()`.  Result `none` models a normal return; `some errs`
models the raised `ExceptionGroup`, where `errs` is the Python set
`set(flags.keys()) - available_flags` that one `KeyError` naming each
contained flag is built from.  Note the asymmetry, taken verbatim from
the source: the subset test snake-cases the keys, the error set does
not. -/
def validate_flag_availability (available : Finset String)
    (flagKeys : List String) : Option (Finset String) :=
  if (flagKeys.map snakeCaseConv).toFinset ⊆ available then
    none
  else
    some (flagKeys.toFinset \ available)

/-!
## Schema registry (DbtFlagsSchema.read_schema,
src/app/dbt/config/jsonschema/__init__.py, lines 36-82)

A schema document is modelled by the two fields the function accesses:
the top-level `properties` mapping (flag name to its declared primitive
type) and the `allOf` array, whose entries carry an optional `$ref` and
an optional `properties` mapping.  The schema directory is an external
input, passed as a map from file name to parsed document.
-/

structure SubSchema where
  ref : Option String
  properties : Option (PyDict String)
deriving DecidableEq

structure SchemaDoc where
  properties : Option (PyDict String)
  allOf : Option (List SubSchema)
deriving DecidableEq

inductive SchemaErr where
  | fileNotFound (name : String)
  | keyErr (key : String)
  | indexErr (idx : Nat)
deriving DecidableEq

/-- Model of `DbtFlagsSchema.read_schema`.  Faithful to the source,
including its bug: for a verb the source opens `global.yml` a second
time and extracts `allOf[1]["properties"]` from it, instead of opening
the composite verb document `dbt-{verb}.yml`; missing keys model the
Python `KeyError` and a short `allOf` the `IndexError`. -/
def read_schema (fs : String → Option SchemaDoc) (verb : Option String)
    (mergeGlobal : Bool) : Except SchemaErr SchemaDoc :=
  match verb with
  | none =>
    match fs "global.yml" with
    | none => .error (.fileNotFound "global.yml")
    | some globalSchema => .ok globalSchema
  | some _ =>
    match (if mergeGlobal then
            match fs "global.yml" with
            | none => Except.error (SchemaErr.fileNotFound "global.yml")
            | some g => Except.ok (some g)
          else Except.ok none) with
    | .error e => .error e
    | .ok globalSchema =>
      -- the second `open` of the source; it names `global.yml`, not
      -- `dbt-{verb}.yml`
      match fs "global.yml" with
      | none => .error (.fileNotFound "global.yml")
      | some doc =>
        match doc.allOf with
        | none => .error (.keyErr "allOf")
        | some conds =>
          match conds.get? 1 with
          | none => .error (.indexErr 1)
          | some sub =>
            match sub.properties with
            | none => .error (.keyErr "properties")
            | some props =>
              let verbSchema : SchemaDoc :=
                { properties := some props, allOf := none }
              if !mergeGlobal then .ok verbSchema
              else
                match globalSchema with
                | none => .error (.keyErr "properties")
                | some g =>
                  match g.properties with
                  | none => .error (.keyErr "properties")
                  | some gprops =>
                    .ok { properties := some (dictUpdate gprops props),
                          allOf := none }

/-- The input on which `read_schema` diverges from claim C5: a global
document with only top-level properties, and a composite verb document
`dbt-run.yml` whose `allOf[1]` holds the verb-specific section. -/
def fsC5 : String → Option SchemaDoc := fun name =>
  if name = "global.yml" then
    some { properties := some [("g_flag", "string")], allOf := none }
  else if name = "dbt-run.yml" then
    some { properties := none,
           allOf := some
             [ { ref := some "dbt-global-schema", properties := none },
               { ref := none, properties := some [("r_flag", "string")] } ] }
  else none

/-!
## Environment provider (src/app/dbt/config/providers/environment.py)
-/

inductive EnvErr where
  | invalidFormat (varName : String)
  | unrecognizedFlags (varName : String) (flags : Finset String)
deriving DecidableEq

/-- One `[a-z][a-z0-9\-]+` token. -/
def isFlagToken (s : String) : Bool :=
  match s.data with
  | [] => false
  | c :: rest =>
    isLowerAlpha c && !rest.isEmpty
      && rest.all (fun d => isLowerAlpha d || isDigitChar d || d = '-')

/-- The language of the anchored regex `^([a-z][a-z0-9\-]+,?)+$` used for
`DBT_{ENABLE|DISABLE}_FLAGS` values: comma-separated flag tokens, one
optional trailing comma, no empty token (concatenations of tokens
without a comma are themselves tokens, so comma-separated segments
characterize the language exactly). -/
def flagsListMatch (value : String) : Bool :=
  let parts := pySplitChar value ','
  let core := if parts.getLast? = some "" then parts.dropLast else parts
  !core.isEmpty && core.all isFlagToken

/-- The `DBT_{verb?}_ENABLE_FLAGS` variable name for a scope. -/
def envEnableVar : Option String → String
  | none => "DBT_ENABLE_FLAGS"
  | some verb => "DBT_" ++ pyUpper verb ++ "_ENABLE_FLAGS"

/-- The `DBT_{verb?}_DISABLE_FLAGS` variable name for a scope. -/
def envDisableVar : Option String → String
  | none => "DBT_DISABLE_FLAGS"
  | some verb => "DBT_" ++ pyUpper verb ++ "_DISABLE_FLAGS"

/-- Model of the inner `_parse_sub_allowlist` of
`EnvironmentConfigProvider.get_flag_allowlist` (environment.py, lines
135-161): reads one variable, checks the format regex, derives the
enable bit from the substring test `"ENABLE" in variable`, snake-cases
every comma-separated flag, and validates availability. -/
def parse_sub_allowlist (environ : PyDict String) (available : Finset String)
    (varName : String) : Except EnvErr (PyDict Bool) :=
  match alookup varName environ with
  | none => .ok []
  | some value =>
    if !flagsListMatch value then .error (.invalidFormat varName)
    else
      let enable := strContains varName "ENABLE"
      let sub : PyDict Bool :=
        (pySplitChar value ',').map (fun flag => (snakeCaseConv flag, enable))
      match validate_flag_availability available (sub.map Prod.fst) with
      | some errs => .error (.unrecognizedFlags varName errs)
      | none => .ok sub

/-- Model of `EnvironmentConfigProvider.get_flag_allowlist`
(environment.py, lines 113-171): parses the ENABLE variable of the
scope, then the DISABLE variable, updating the former with the latter;
returns `none` for an empty result.  `available` models the flag
availability set of the queried scope. -/
def env_get_flag_allowlist (environ : PyDict String)
    (available : Finset String) (verb : Option String) :
    Except EnvErr (Option (PyDict Bool)) :=
  match parse_sub_allowlist environ available (envEnableVar verb) with
  | .error e => .error e
  | .ok enabled =>
    match parse_sub_allowlist environ available (envDisableVar verb) with
    | .error e => .error e
    | .ok disabled =>
      let allowlist := dictUpdate (dictUpdate [] enabled) disabled
      .ok (if allowlist.isEmpty then none else some allowlist)

/-- Model of `EnvironmentConfigProvider.get_flag_internal_values`
(environment.py, lines 193-241): collects the environment entries whose
name starts with the scope var prefix, keyed by the lowercased
remainder of the name, then validates availability. -/
def env_get_flag_internal_values (environ : PyDict String)
    (available : Finset String) (verb : Option String) :
    Except EnvErr (Option (PyDict String)) :=
  let vp := match verb with
    | none => "DBT_FLAG_"
    | some v => "DBT_" ++ pyUpper v ++ "_FLAG_"
  let flags : PyDict String := environ.foldl
    (fun acc nv =>
      if pyStartsWith nv.1 vp then
        dictUpdate acc [(pyLower (pyDrop nv.1 (pyLen vp)), nv.2)]
      else acc)
    []
  if flags.isEmpty then .ok none
  else
    match validate_flag_availability available (flags.map Prod.fst) with
    | some errs => .error (.unrecognizedFlags (vp ++ "*") errs)
    | none => .ok (if flags.isEmpty then none else some flags)

/-- Model of `EnvironmentConfigProvider.get_projects_root_dir`
(environment.py, lines 265-275): returns `Path(value)` of the
`DBT_PROJECTS_ROOT` variable when set and `None` otherwise.  It performs
no filesystem check at all, so the definition takes no filesystem
predicates and has no failure outcome. -/
def env_get_projects_root_dir (environ : PyDict String) : Option String :=
  match alookup "DBT_PROJECTS_ROOT" environ with
  | none => none
  | some v => some v

/-- `DefaultsConfigProvider.get_projects_root_dir`
(src/app/dbt/config/providers/defaults/__init__.py): always `None`. -/
def defaults_get_projects_root_dir : Option String := none

/-!
## File provider (src/app/dbt/config/providers/file.py)
-/

/-- The parsed section list of an ini file: section name to its
option-value dict. -/
abbrev IniSections := PyDict (PyDict String)

inductive IniParseResult where
  | parsed (sections : IniSections)
  | missingHeader
deriving DecidableEq

inductive FileErr where
  | fileNotFound
  | isADirectory
  | missingSectionHeaders
  | emptyNoSections
  | notADirectory
  | invalidVerbsFormat (sec opt : String)
  | unsupportedVerbs (sec opt : String) (verbs : Finset String)
  | unrecognizedFlags (sec : String) (flags : Finset String)
  | boolCoercionErr (sec opt : String)
  | invalidEnvVarNames (sec : String) (names : List String)
  | renameEnvCoercionErr
deriving DecidableEq

/-- Model of `FileConfigProvider._read_config_file` (file.py, lines
63-116).  `environ` models `os.environ`, `pathExists`/`pathIsDir` the
filesystem predicates, and `parseIni` the `configparser` run on the
file at a path (`missingHeader` models a `MissingSectionHeaderError`).
Errors model the raises; `ok none` the unset-variable return. -/
def read_config_file (environ : PyDict String)
    (pathExists pathIsDir : String → Bool)
    (parseIni : String → IniParseResult) :
    Except FileErr (Option (String × IniSections)) :=
  match alookup "DBT_CONFIG_FILE" environ with
  | none => .ok none
  | some v =>
    if (pyStrip v).data.isEmpty then .ok none
    else
      let path := pyStrip v
      if !pathExists path then .error .fileNotFound
      else if pathIsDir path then .error .isADirectory
      else
        match parseIni path with
        | .missingHeader => .error .missingSectionHeaders
        | .parsed sections =>
          if sections.isEmpty then .error .emptyNoSections
          else .ok (some (path, sections))

/-- `config.has_option(sec, opt)` plus `config.get(sec, opt)`: the value
of an option, `none` when the config, the section or the option is
absent. -/
def iniGetOption (cfg : Option IniSections) (sec opt : String) :
    Option String :=
  cfg.bind (fun sections => (alookup sec sections).bind (alookup opt))

/-- Model of `FileConfigProvider._read_ini_section` (file.py, lines
493-497). -/
def file_read_ini_section (cfg : Option IniSections) (name : String) :
    Option (PyDict String) :=
  match cfg with
  | none => none
  | some sections => alookup name sections

/-- One `[a-z][a-z\-]+` verb token (no digits, unlike flag tokens). -/
def verbAtomRun (t : String) : Bool :=
  match t.data with
  | [] => true
  | c :: rest =>
    isLowerAlpha c && !rest.isEmpty
      && rest.all (fun d => isLowerAlpha d || d = '-')

/-- The language of the anchored regex `^(([a-z][a-z\-]+|[*]),?)+$` used
for verb-list options: comma-separated segments, one optional trailing
comma, each segment a non-empty concatenation of verb tokens and `*`
atoms (equivalently: splitting a segment on `*` leaves only empty runs
or verb tokens). -/
def verbsOptionMatch (value : String) : Bool :=
  let parts := pySplitChar value ','
  let core := if parts.getLast? = some "" then parts.dropLast else parts
  !core.isEmpty && core.all (fun seg =>
    !seg.data.isEmpty && (pySplitChar seg '*').all verbAtomRun)

/-- Model of `FileConfigProvider._get_verbs_from_option` (file.py, lines
438-485): reads `[sec].opt`, checks the format, splits on commas into a
Python set (a trailing comma contributes the empty string, which then
fails the subset check, as in the source), expands `*`, and validates
against the available verbs. -/
def file_get_verbs_from_option (cfg : Option IniSections) (sec opt : String)
    (availableVerbs : Finset String) :
    Except FileErr (Option (Finset String)) :=
  match iniGetOption cfg sec opt with
  | none => .ok none
  | some valueStr =>
    if !verbsOptionMatch valueStr then .error (.invalidVerbsFormat sec opt)
    else
      let value := (pySplitChar valueStr ',').toFinset
      let value := if "*" ∈ value then value.erase "*" ∪ availableVerbs
                   else value
      if !(value ⊆ availableVerbs) then
        .error (.unsupportedVerbs sec opt (value \ availableVerbs))
      else .ok (some value)

/-- `FileConfigProvider.get_allowed_verbs` (file.py, lines 122-136). -/
def file_get_allowed_verbs (cfg : Option IniSections)
    (availableVerbs : Finset String) :
    Except FileErr (Option (Finset String)) :=
  file_get_verbs_from_option cfg "dbt" "allowed_verbs" availableVerbs

/-- `FileConfigProvider.get_flag_allowlist_apply_global` (file.py, lines
288-304). -/
def file_get_flag_allowlist_apply_global (cfg : Option IniSections)
    (availableVerbs : Finset String) :
    Except FileErr (Option (Finset String)) :=
  file_get_verbs_from_option cfg "dbt" "apply_global_allowlist" availableVerbs

/-- `FileConfigProvider.get_env_variables_apply_global` (file.py, lines
226-241). -/
def file_get_env_variables_apply_global (cfg : Option IniSections)
    (availableVerbs : Finset String) :
    Except FileErr (Option (Finset String)) :=
  file_get_verbs_from_option cfg "dbt" "apply_global_env_vars" availableVerbs

/-- `FileConfigProvider.get_flag_internal_values_apply_global` (file.py,
lines 344-363). -/
def file_get_flag_internal_values_apply_global (cfg : Option IniSections)
    (availableVerbs : Finset String) :
    Except FileErr (Option (Finset String)) :=
  file_get_verbs_from_option cfg "dbt" "apply_global_internal_flag_values"
    availableVerbs

/-- `FileConfigProvider.get_variables_apply_global` (file.py, lines
421-436). -/
def file_get_variables_apply_global (cfg : Option IniSections)
    (availableVerbs : Finset String) :
    Except FileErr (Option (Finset String)) :=
  file_get_verbs_from_option cfg "dbt" "apply_global_vars" availableVerbs

/-- Model of `FileConfigProvider.get_flag_allowlist` (file.py, lines
243-286): reads `[dbt.{verb?}.flags.allowlist]`, coerces every value
with `BoolParser.parse` (first failure raises), snake-cases the keys
and validates availability. -/
def file_get_flag_allowlist (cfg : Option IniSections)
    (available : Finset String) (verb : Option String) :
    Except FileErr (Option (PyDict Bool)) :=
  let sectionName :=
    "dbt." ++ (match verb with | some v => v ++ "." | none => "")
      ++ "flags.allowlist"
  match file_read_ini_section cfg sectionName with
  | none => .ok none
  | some sect =>
    if sect.isEmpty then .ok none
    else
      match sect.foldlM
          (fun acc fv =>
            match boolParse (some fv.2) false with
            | .ok b => Except.ok (dictUpdate acc [(snakeCaseConv fv.1, b)])
            | .error _ =>
              Except.error (FileErr.boolCoercionErr sectionName fv.1))
          ([] : PyDict Bool) with
      | .error e => .error e
      | .ok allowlist =>
        match validate_flag_availability available (allowlist.map Prod.fst) with
        | some errs => .error (.unrecognizedFlags sectionName errs)
        | none => .ok (some allowlist)

/-- Model of `FileConfigProvider.get_flag_internal_values` (file.py,
lines 306-342): reads `[dbt.{verb?}.flags.values]`, snake-cases the
keys, validates availability, values unparsed. -/
def file_get_flag_internal_values (cfg : Option IniSections)
    (available : Finset String) (verb : Option String) :
    Except FileErr (Option (PyDict String)) :=
  let sectionName :=
    "dbt." ++ (match verb with | some v => v ++ "." | none => "")
      ++ "flags.values"
  match file_read_ini_section cfg sectionName with
  | none => .ok none
  | some sect =>
    if sect.isEmpty then .ok none
    else
      let flags := sect.foldl
        (fun acc fv => dictUpdate acc [(snakeCaseConv fv.1, fv.2)]) []
      match validate_flag_availability available (flags.map Prod.fst) with
      | some errs => .error (.unrecognizedFlags sectionName errs)
      | none => .ok (some flags)

/-- Model of `FileConfigProvider.get_variables` (file.py, lines 396-419):
reads `[dbt.{verb?}.vars]`, snake-cases the keys, no validation. -/
def file_get_variables (cfg : Option IniSections) (verb : Option String) :
    Except FileErr (Option (PyDict String)) :=
  let sectionName :=
    "dbt." ++ (match verb with | some v => v ++ "." | none => "") ++ "vars"
  match file_read_ini_section cfg sectionName with
  | none => .ok none
  | some sect =>
    if sect.isEmpty then .ok none
    else
      .ok (some (sect.foldl
        (fun acc fv => dictUpdate acc [(snakeCaseConv fv.1, fv.2)]) []))

/-- The language of the anchored regex `^DBT_([A-Z0-9]+_+)+([A-Z0-9]+)$`
(with `re.IGNORECASE`) of `FileConfigProvider.get_env_variables`: after
`DBT_`, two or more alphanumeric chunks separated by runs of
underscores, no leading or trailing underscore in the remainder. -/
def isConstantCaseVar (s : String) : Bool :=
  pyStartsWith s "DBT_" &&
    (let parts := pySplitChar (pyDrop s 4) '_'
     decide (parts.length ≥ 2)
       && (match parts.head? with
           | some h => !h.data.isEmpty
           | none => false)
       && (match parts.getLast? with
           | some l => !l.data.isEmpty
           | none => false)
       && parts.all (fun p =>
            p.data.all (fun c => c.isAlpha || isDigitChar c)))

def fileIsSecretVar (k : String) : Bool :=
  pyStartsWith k "DBT_ENV_SECRET_"

def fileIsCustomVar (k : String) : Bool :=
  pyStartsWith k "DBT_ENV_CUSTOM_ENV_"

def fileIsBaseVar (k : String) : Bool :=
  isConstantCaseVar k && !fileIsSecretVar k && !fileIsCustomVar k

/-- The `rename` closure of `FileConfigProvider.get_env_variables`:
base-kind `DBT_ENV_{X}` keys become `DBT_{X}`. -/
def fileRenameEnvKey (k : String) : String :=
  if fileIsBaseVar k && pyStartsWith k "DBT_ENV_" then
    "DBT_" ++ pyDrop k 8
  else k

/-- Model of `FileConfigProvider.get_env_variables` (file.py, lines
138-224): resolves the `[dbt].rename_env` toggle with `BoolParser`,
reads `[dbt.{verb?}.env_vars]`, upper-cases every key, collects invalid
names, renames base-kind keys when the toggle is set, raises on invalid
names, returns `none` when nothing is left. -/
def file_get_env_variables (cfg : Option IniSections) (verb : Option String) :
    Except FileErr (Option (PyDict String)) :=
  match cfg with
  | none => .ok none
  | some _ =>
    match (match iniGetOption cfg "dbt" "rename_env" with
          | none => Except.ok false
          | some v =>
            match boolParse (some v) false with
            | .ok b => Except.ok b
            | .error _ => Except.error FileErr.renameEnvCoercionErr) with
    | .error e => .error e
    | .ok shouldRename =>
      let sectionName :=
        "dbt." ++ (match verb with | some v => v ++ "." | none => "")
          ++ "env_vars"
      match file_read_ini_section cfg sectionName with
      | none => .ok none
      | some options =>
        if options.isEmpty then .ok none
        else
          let out := options.foldl
            (fun (acc : PyDict String × List String) kv =>
              let key := pyUpper kv.1
              if !isConstantCaseVar key then (acc.1, acc.2 ++ [key])
              else if shouldRename then
                (dictUpdate acc.1 [(fileRenameEnvKey key, kv.2)], acc.2)
              else (dictUpdate acc.1 [(key, kv.2)], acc.2))
            ([], [])
          if !out.2.isEmpty then
            .error (.invalidEnvVarNames sectionName out.2)
          else if out.1.isEmpty then .ok none
          else .ok (some out.1)

/-- Model of `FileConfigProvider.get_projects_root_dir` (file.py, lines
365-394): reads `[dbt].projects_root_dir` and, unlike the environment
provider, validates that the path exists and is a directory, raising
otherwise. -/
def file_get_projects_root_dir (cfg : Option IniSections)
    (pathExists pathIsDir : String → Bool) :
    Except FileErr (Option String) :=
  match iniGetOption cfg "dbt" "projects_root_dir" with
  | none => .ok none
  | some prd =>
    if !pathExists prd then .error .fileNotFound
    else if !pathIsDir prd then .error .notADirectory
    else .ok (some prd)

/-!
## The coercion stage (DbtFlagsConfig._load_internal_values,
src/app/dbt/config.py, lines 211-284)
-/

inductive CastValue where
  | boolVal (b : Bool)
  | intVal (n : Int)
  | numVal (q : Rat)
  | strVal (s : String)
  | rawVal (s : String)
deriving DecidableEq

structure CastErr where
  flag : String
  value : String
deriving DecidableEq

def digitsToNat (ds : List Char) : Nat :=
  ds.foldl (fun n c => 10 * n + (c.toNat - 48)) 0

/-- Model of Python `int(value)` on a string: surrounding whitespace is
stripped, an optional sign precedes a non-empty run of decimal digits
(PEP 515 underscore separators are not modelled, no input here uses
them).  `none` models the `ValueError` raise. -/
def pythonInt? (s : String) : Option Int :=
  match (pyStrip s).data with
  | [] => none
  | c :: rest =>
    if c = '+' then
      if !rest.isEmpty && rest.all isDigitChar then
        some (digitsToNat rest : Int)
      else none
    else if c = '-' then
      if !rest.isEmpty && rest.all isDigitChar then
        some (-(digitsToNat rest : Int))
      else none
    else
      if (c :: rest).all isDigitChar then
        some (digitsToNat (c :: rest) : Int)
      else none

/-- Parses a non-empty digit run into a natural number. -/
def digitRun? (ds : List Char) : Option Nat :=
  if !ds.isEmpty && ds.all isDigitChar then some (digitsToNat ds) else none

/-- Model of Python `float(value)` on finite decimal literals:
`[sign] digits [. digits] [e [sign] digits]` with at least one digit in
the mantissa, as an exact rational (special values such as `inf`/`nan`
and underscore separators are not modelled, no input here uses them).
`none` models the `ValueError` raise. -/
def pythonFloat? (s : String) : Option Rat :=
  let cs := (pyLower (pyStrip s)).data
  let signed : Int × List Char :=
    match cs with
    | '+' :: rest => (1, rest)
    | '-' :: rest => (-1, rest)
    | rest => (1, rest)
  let mantAndExp := splitCharAux 'e' signed.2
  match mantAndExp with
  | [mant] =>
    (parseMantissa mant).map (fun q => signed.1 * q)
  | [mant, expPart] =>
    (parseMantissa mant).bind (fun q =>
      (parseExponent expPart).map (fun e =>
        signed.1 * q * (10 : Rat) ^ e))
  | _ => none
where
  parseMantissa (mant : List Char) : Option Rat :=
    match splitCharAux '.' mant with
    | [intPart] =>
      (digitRun? intPart).map (fun n => (n : Rat))
    | [intPart, fracPart] =>
      if intPart.isEmpty && fracPart.isEmpty then none
      else if (intPart.all isDigitChar) && (fracPart.all isDigitChar)
              && !(intPart.isEmpty && fracPart.isEmpty) then
        some ((digitsToNat intPart : Rat)
          + (digitsToNat fracPart : Rat) / (10 : Rat) ^ fracPart.length)
      else none
    | _ => none
  parseExponent (expPart : List Char) : Option Int :=
    match expPart with
    | '+' :: rest => (digitRun? rest).map (fun n => (n : Int))
    | '-' :: rest => (digitRun? rest).map (fun n => -(n : Int))
    | rest => (digitRun? rest).map (fun n => (n : Int))

/-- Model of the casting loop of `DbtFlagsConfig._load_internal_values`
(src/app/dbt/config.py, lines 237-275).  `verbSchemaProps` maps each
flag of the scope schema to its declared `type` entry (`none` models a
flag spec without a `type` key); absent flags behave like
`verb_schema.get(flag, {})`.  Per the source, the `boolean` branch calls
`value.trim()`, an attribute Python strings do not have, so it always
raises `AttributeError`, which the `except Exception` clause wraps into
a `TypeError` cast error; the model therefore records an error for
every boolean-typed flag.  All cast errors are collected and raised as
one group (`Except.error`). -/
def cast_internal_values (verbSchemaProps : PyDict (Option String))
    (raw : PyDict String) : Except (List CastErr) (PyDict CastValue) :=
  let out := raw.foldl
    (fun (acc : PyDict CastValue × List CastErr) fv =>
      let expectedType : Option String :=
        (alookup fv.1 verbSchemaProps).getD none
      match expectedType with
      | some t =>
        if t = "boolean" then
          (acc.1, acc.2 ++ [⟨fv.1, fv.2⟩])
        else if t = "integer" then
          match pythonInt? fv.2 with
          | some n => (acc.1 ++ [(fv.1, CastValue.intVal n)], acc.2)
          | none => (acc.1, acc.2 ++ [⟨fv.1, fv.2⟩])
        else if t = "number" then
          match pythonFloat? fv.2 with
          | some q => (acc.1 ++ [(fv.1, CastValue.numVal q)], acc.2)
          | none => (acc.1, acc.2 ++ [⟨fv.1, fv.2⟩])
        else if t = "string" then
          (acc.1 ++ [(fv.1, CastValue.strVal fv.2)], acc.2)
        else
          (acc.1 ++ [(fv.1, CastValue.rawVal fv.2)], acc.2)
      | none => (acc.1 ++ [(fv.1, CastValue.rawVal fv.2)], acc.2))
    ([], [])
  if out.2.isEmpty then .ok out.1 else .error out.2

/-- Whether a cast value conforms to a declared primitive type. -/
def typeConforms (t : Option String) (v : CastValue) : Bool :=
  match t with
  | some t =>
    if t = "boolean" then
      match v with | .boolVal _ => true | _ => false
    else if t = "integer" then
      match v with | .intVal _ => true | _ => false
    else if t = "number" then
      match v with | .intVal _ => true | .numVal _ => true | _ => false
    else if t = "string" then
      match v with | .strVal _ => true | _ => false
    else true
  | none => true

/-- Modelled from the spec: the post-coercion `jsonschema.validate` call
(an external library, absent from src/).  Spec section 4.4: "After
coercion, run full-document schema validation (struct-level: required
fields, type conformance)". -/
def jsonschemaTypeCheck (verbSchemaProps : PyDict (Option String))
    (requiredKeys : List String) (doc : PyDict CastValue) : Bool :=
  requiredKeys.all (fun k => (alookup k doc).isSome)
    && doc.all (fun fv =>
        typeConforms ((alookup fv.1 verbSchemaProps).getD none) fv.2)

/-!
## Theorems
-/

theorem oOr_none_right {α : Type} (a : Option α) : oOr a none = a := by
  cases a <;> rfl

theorem oOr_assoc {α : Type} (a b c : Option α) :
    oOr (oOr a b) c = oOr a (oOr b c) := by
  cases a <;> cases b <;> rfl

theorem alookup_append {α : Type} (k : String) (l₁ l₂ : PyDict α) :
    alookup k (l₁ ++ l₂) = oOr (alookup k l₁) (alookup k l₂) := by
  induction l₁ with
  | nil => simp [alookup, oOr]
  | cons p rest ih =>
    by_cases h : p.1 = k <;> simp [alookup, h, oOr, ih]

theorem alookup_map_upd {α : Type} (k : String) (d u : PyDict α) :
    alookup k (d.map (fun p => (p.1, (alookup p.1 u).getD p.2)))
      = (alookup k d).map (fun v => (alookup k u).getD v) := by
  induction d with
  | nil => simp [alookup]
  | cons p rest ih =>
    by_cases h : p.1 = k
    · subst h; simp [alookup, ih]
    · simp [alookup, h, ih]

theorem alookup_filter_of_none {α : Type} (k : String) (d u : PyDict α)
    (h : alookup k d = none) :
    alookup k (u.filter (fun q => (alookup q.1 d).isNone)) = alookup k u := by
  induction u with
  | nil => simp
  | cons q rest ih =>
    by_cases hq : q.1 = k
    · subst hq
      simp [h, alookup, List.filter]
    · by_cases hkeep : (alookup q.1 d).isNone
      · simp [alookup, List.filter, hkeep, hq, ih]
      · simp [alookup, List.filter, hkeep, hq, ih]

theorem alookup_filter_of_some {α : Type} (k : String) (d u : PyDict α)
    {w : α} (h : alookup k d = some w) :
    alookup k (u.filter (fun q => (alookup q.1 d).isNone)) = none := by
  induction u with
  | nil => simp [alookup]
  | cons q rest ih =>
    by_cases hq : q.1 = k
    · subst hq
      simp [List.filter, h, ih]
    · by_cases hkeep : (alookup q.1 d).isNone
      · simp [alookup, List.filter, hkeep, hq, ih]
      · simp [alookup, List.filter, hkeep, hq, ih]

/-- Key lemma: lookup after a dict update prefers the updating dict and
falls back to the original dict. -/
theorem alookup_dictUpdate {α : Type} (k : String) (d u : PyDict α) :
    alookup k (dictUpdate d u) = oOr (alookup k u) (alookup k d) := by
  unfold dictUpdate
  rw [alookup_append, alookup_map_upd]
  cases h : alookup k d with
  | none =>
    rw [alookup_filter_of_none k d u h]
    cases alookup k u <;> simp [oOr]
  | some w =>
    rw [alookup_filter_of_some k d u h]
    cases alookup k u <;> simp [oOr, Option.getD]

theorem findSome?_append {α β : Type} (f : α → Option β) (l₁ l₂ : List α) :
    (l₁ ++ l₂).findSome? f = oOr (l₁.findSome? f) (l₂.findSome? f) := by
  induction l₁ with
  | nil => simp [oOr]
  | cons a rest ih =>
    cases h : f a <;> simp [List.findSome?_cons, h, oOr, ih]

theorem loadAttribute_go {α : Type} (k : String)
    (results : List (Option (PyDict α))) (acc : PyDict α) :
    alookup k (results.foldl
      (fun value providerValue =>
        match providerValue with
        | some pv => dictUpdate value pv
        | none => value) acc)
      = oOr (results.reverse.findSome? (fun r => r.bind (alookup k)))
            (alookup k acc) := by
  induction results generalizing acc with
  | nil => simp [oOr]
  | cons r rs ih =>
    rw [List.foldl_cons, ih, List.reverse_cons, findSome?_append, oOr_assoc]
    congr 1
    cases r with
    | none => simp [oOr]
    | some pv =>
      simp [List.findSome?, Option.bind, alookup_dictUpdate]
      cases alookup k pv <;> simp [oOr]

/-- Claim C1: in the per-attribute merge over the ordered provider list,
for every key the merged value is the value of the last (highest index)
provider whose result was non-None and contained that key, and a
provider returning None leaves the accumulated attribute unchanged. -/
theorem resolver_merge_last_wins (α : Type) :
    (∀ (results : List (Option (PyDict α))) (k : String),
      alookup k (loadAttribute results)
        = results.reverse.findSome? (fun r => r.bind (alookup k)))
    ∧ (∀ results : List (Option (PyDict α)),
      loadAttribute (results ++ [none]) = loadAttribute results) := by
  constructor
  · intro results k
    unfold loadAttribute
    rw [loadAttribute_go]
    exact oOr_none_right _
  · intro results
    unfold loadAttribute
    rw [List.foldl_append]
    rfl

/-- Claim C2: the claim states that `available_verbs()` is exactly the
intersection of the two directory verb sets, including when one
directory contributes no verbs.  Evaluating the code model at the
failing input (empty default-allowlist directory, schema directory
containing only `dbt-run.yml`): the accumulator is reseeded from the
second directory and the function returns `{run}` instead of the empty
intersection.  The older sibling implementation
`DbtConfig._load_available_verbs` computes the empty intersection there,
witnessing the intent the code comment states. -/
theorem available_verbs_empty_dir_divergence :
    available_verbs [(∅ : Finset String), {"run"}] = {"run"}
    ∧ ((∅ : Finset String) ∩ {"run"}) = ∅
    ∧ ({"run"} : Finset String) ≠ ∅
    ∧ loadAvailableVerbs [(∅ : Finset String), {"run"}] = some ∅ := by
  refine ⟨?_, ?_, ?_, ?_⟩ <;> decide

/-- Claim C4: the boolean coercer maps a present token to `True` exactly
for the trimmed, lowered tokens true/yes/1/on, to `False` exactly for
false/no/0/off, and raises for every other token. -/
theorem bool_coercion_exact (s : String) (d : Bool) :
    (boolParse (some s) d = .ok true ↔ pyLower (pyStrip s) ∈ boolTruthies)
    ∧ (boolParse (some s) d = .ok false ↔ pyLower (pyStrip s) ∈ boolFalsies)
    ∧ (pyLower (pyStrip s) ∉ boolTruthies → pyLower (pyStrip s) ∉ boolFalsies →
        boolParse (some s) d = .error s) := by
  have hdisj : ∀ x : String, x ∈ boolFalsies → x ∉ boolTruthies := by
    intro x hx
    simp [boolFalsies] at hx
    rcases hx with h | h | h | h <;> subst h <;> decide
  have hmemT : ∀ x : String, x ∈ boolTruthies → x ∈ boolValidValues := by
    intro x hx
    simp [boolValidValues]
    exact Or.inl hx
  have hmemF : ∀ x : String, x ∈ boolFalsies → x ∈ boolValidValues := by
    intro x hx
    simp [boolValidValues]
    exact Or.inr hx
  by_cases hv : pyLower (pyStrip s) ∈ boolValidValues
  · have hsplit : pyLower (pyStrip s) ∈ boolTruthies
        ∨ pyLower (pyStrip s) ∈ boolFalsies := by
      simpa [boolValidValues] using hv
    refine ⟨?_, ?_, ?_⟩
    · simp [boolParse, hv]
    · constructor
      · intro h
        simp [boolParse, hv] at h
        rcases hsplit with ht | hf
        · exact absurd ht h
        · exact hf
      · intro hf
        simp [boolParse, hv]
        exact hdisj _ hf
    · intro hnt hnf
      rcases hsplit with ht | hf
      · exact absurd ht hnt
      · exact absurd hf hnf
  · refine ⟨?_, ?_, ?_⟩
    · simp [boolParse, hv]
      intro ht
      exact absurd (hmemT _ ht) hv
    · simp [boolParse, hv]
      intro hf
      exact absurd (hmemF _ hf) hv
    · intro _ _
      simp [boolParse, hv]

/-- Witness for `bool_coercion_exact`: the claim instance `"enabled"`,
which is neither a truthy nor a falsy token, raises. -/
theorem bool_coercion_exact_witness :
    boolParse (some "enabled") true = .error "enabled" :=
  (bool_coercion_exact "enabled" true).2.2 (by decide) (by decide)

/-- Claim C3, counterexample: the claim promises exactly one sub-error
per unrecognized flag.  With the mapping keys `foo-bar` (recognized
once snake-cased) and `bad` (unrecognized) against the availability set
`{foo_bar}`, exactly one flag is unrecognized, yet the raised group
carries two sub-errors, because the source snake-cases the keys in the
subset test but not in the error-set computation. -/
theorem validate_flag_availability_two_errors_for_one_bad_flag :
    validate_flag_availability {"foo_bar"} ["foo-bar", "bad"]
        = some {"foo-bar", "bad"}
    ∧ ({"foo-bar", "bad"} : Finset String).card = 2
    ∧ ((["foo-bar", "bad"].map snakeCaseConv).toFinset
        \ ({"foo_bar"} : Finset String)).card = 1 := by
  refine ⟨?_, ?_, ?_⟩ <;> decide

/-- Claim C3, amended: `validate_flag_availability` returns normally
exactly when every key, snake-cased, is available; otherwise it raises
one sub-error per raw key that is not literally in the availability set
(which is one per unrecognized flag whenever the keys are already in
snake_case). -/
theorem validate_flag_availability_amended (available : Finset String)
    (flagKeys : List String) :
    (validate_flag_availability available flagKeys = none ↔
      ∀ f ∈ flagKeys, snakeCaseConv f ∈ available)
    ∧ (∀ errs, validate_flag_availability available flagKeys = some errs →
        errs = flagKeys.toFinset \ available) := by
  have hiff : ((flagKeys.map snakeCaseConv).toFinset ⊆ available) ↔
      (∀ f ∈ flagKeys, snakeCaseConv f ∈ available) := by
    constructor
    · intro hs f hf
      exact hs (List.mem_toFinset.mpr (List.mem_map_of_mem _ hf))
    · intro ha x hx
      rcases List.mem_map.mp (List.mem_toFinset.mp hx) with ⟨f, hf, rfl⟩
      exact ha f hf
  unfold validate_flag_availability
  by_cases h : (flagKeys.map snakeCaseConv).toFinset ⊆ available
  · constructor
    · simp [h]
      exact hiff.mp h
    · intro errs herrs
      simp [h] at herrs
  · refine ⟨⟨fun hnone => ?_, fun hall => absurd (hiff.mpr hall) h⟩,
      fun errs herrs => ?_⟩
    · simp [h] at hnone
    · simp [h] at herrs
      exact herrs.symm

/-- Witness for `validate_flag_availability_amended`, at the scope
availability set `{foo_bar}` and keys `foo-bar`, `bad`. -/
theorem validate_flag_availability_amended_witness :
    ({"foo-bar", "bad"} : Finset String)
      = (["foo-bar", "bad"] : List String).toFinset \ {"foo_bar"} :=
  (validate_flag_availability_amended {"foo_bar"} ["foo-bar", "bad"]).2
    {"foo-bar", "bad"} (by decide)

/-- Claim C5: evaluating `read_schema` at the failing input `fsC5`
(global document with top-level properties only, composite verb
document `dbt-run.yml` whose `allOf[1]` is the verb-specific section):
the verb query fails with `KeyError("allOf")` because the source opens
`global.yml` instead of `dbt-{verb}.yml`, while the verb-specific
section the claim promises does exist in `dbt-run.yml`; the global
query, reading the same file, succeeds. -/
theorem read_schema_reads_wrong_file :
    read_schema fsC5 (some "run") false = .error (.keyErr "allOf")
    ∧ (((fsC5 "dbt-run.yml").bind (fun d => d.allOf)).bind
        (fun l => (l.get? 1).bind SubSchema.properties))
        = some [("r_flag", "string")]
    ∧ read_schema fsC5 none false
        = .ok { properties := some [("g_flag", "string")], allOf := none } := by
  refine ⟨?_, ?_, ?_⟩ <;> decide

/-- Claim C6: with the environment `DBT_RUN_FLAG_THREADS=4` and the verb
schema declaring `threads` of type integer, the environment provider
extracts raw `{"threads": "4"}`, the coercion stage of
`_load_internal_values` (raw values merged with the empty file-provided
dict) produces the integer value `4`, the post-coercion schema type
check passes, and the final per-verb merge (an empty shared layer
updated with the run layer) yields the integer `4` for `run.threads`,
which differs from the string `"4"`. -/
theorem env_integer_internal_value_coerced :
    env_get_flag_internal_values
        [("DBT_RUN_FLAG_THREADS", "4")] {"threads"} (some "run")
        = .ok (some [("threads", "4")])
    ∧ cast_internal_values [("threads", some "integer")]
        (dictUpdate [] [("threads", "4")])
        = .ok [("threads", CastValue.intVal 4)]
    ∧ jsonschemaTypeCheck [("threads", some "integer")] []
        [("threads", CastValue.intVal 4)] = true
    ∧ alookup "threads" (dictUpdate [] [("threads", CastValue.intVal 4)])
        = some (CastValue.intVal 4)
    ∧ CastValue.intVal 4 ≠ CastValue.strVal "4" := by
  refine ⟨?_, ?_, ?_, ?_, ?_⟩ <;> decide

/-- Claim C7: round-trip through the environment enable-flags
convention: with `DBT_ENABLE_FLAGS=foo-bar` and `foo_bar` recognized by
the schema of the global scope, `get_flag_allowlist(None)` returns the
mapping `{"foo_bar": True}` (kebab-case input normalized to the
snake_case canonical key, value True). -/
theorem env_allowlist_kebab_roundtrip :
    env_get_flag_allowlist [("DBT_ENABLE_FLAGS", "foo-bar")] {"foo_bar"} none
      = .ok (some [("foo_bar", true)]) := by
  decide

/-- Claim C8, counterexample: the environment provider returns the
configured path as-is.  The definition mirrors the source, which
performs no filesystem call at all, so `Path("/nope")` is returned even
on a filesystem where `/nope` does not exist — the claim demands a
raise there, but the method has no failure outcome. -/
theorem env_projects_root_dir_unvalidated :
    env_get_projects_root_dir [("DBT_PROJECTS_ROOT", "/nope")]
      = some "/nope" := by
  decide

/-- Claim C8, amended: the file provider validates the configured
projects root directory (a returned path exists and is a directory, a
missing path raises FileNotFoundError, a non-directory raises
NotADirectoryError); the environment provider returns the
`DBT_PROJECTS_ROOT` value unvalidated (or None when unset); the
defaults provider returns None. -/
theorem projects_root_dir_validation_amended
    (cfg : Option IniSections) (pathExists pathIsDir : String → Bool)
    (environ : PyDict String) :
    (∀ p, file_get_projects_root_dir cfg pathExists pathIsDir = .ok (some p) →
        pathExists p = true ∧ pathIsDir p = true)
    ∧ (∀ p, iniGetOption cfg "dbt" "projects_root_dir" = some p →
        pathExists p = false →
        file_get_projects_root_dir cfg pathExists pathIsDir
          = .error .fileNotFound)
    ∧ (∀ p, iniGetOption cfg "dbt" "projects_root_dir" = some p →
        pathExists p = true → pathIsDir p = false →
        file_get_projects_root_dir cfg pathExists pathIsDir
          = .error .notADirectory)
    ∧ env_get_projects_root_dir environ = alookup "DBT_PROJECTS_ROOT" environ
    ∧ defaults_get_projects_root_dir = none := by
  refine ⟨?_, ?_, ?_, ?_, rfl⟩
  · intro p hp
    unfold file_get_projects_root_dir at hp
    cases hopt : iniGetOption cfg "dbt" "projects_root_dir" with
    | none =>
      rw [hopt] at hp
      simp at hp
    | some prd =>
      rw [hopt] at hp
      by_cases he : pathExists prd
      · by_cases hd : pathIsDir prd
        · simp [he, hd] at hp
          subst hp
          exact ⟨he, hd⟩
        · simp [he, hd] at hp
      · simp [he] at hp
  · intro p hopt hne
    unfold file_get_projects_root_dir
    rw [hopt]
    simp [hne]
  · intro p hopt he hd
    unfold file_get_projects_root_dir
    rw [hopt]
    simp [he, hd]
  · unfold env_get_projects_root_dir
    cases alookup "DBT_PROJECTS_ROOT" environ <;> rfl

/-- Witness for `projects_root_dir_validation_amended`: a config naming
`/data` as projects root on a filesystem without it raises
FileNotFoundError. -/
theorem projects_root_dir_validation_amended_witness :
    file_get_projects_root_dir
        (some [("dbt", [("projects_root_dir", "/data")])])
        (fun _ => false) (fun _ => false)
      = .error .fileNotFound :=
  (projects_root_dir_validation_amended
      (some [("dbt", [("projects_root_dir", "/data")])])
      (fun _ => false) (fun _ => false) []).2.1 "/data" (by decide) rfl

/-- Claim C9, counterexample: with `DBT_CONFIG_FILE` set, an existing
but empty file (zero parsed sections) raises a ParsingError at
construction, and a missing file raises FileNotFoundError — in neither
case does the provider reach the all-methods-return-None state the
claim asserts for a "missing or empty" file. -/
theorem file_empty_or_missing_raises :
    read_config_file [("DBT_CONFIG_FILE", "/cfg/app.ini")]
        (fun _ => true) (fun _ => false) (fun _ => .parsed [])
      = .error .emptyNoSections
    ∧ read_config_file [("DBT_CONFIG_FILE", "/cfg/app.ini")]
        (fun _ => false) (fun _ => false) (fun _ => .parsed [])
      = .error .fileNotFound := by
  constructor <;> rfl

/-- Claim C9, amended: when `DBT_CONFIG_FILE` is unset or blank the
provider is constructed without a config and every provider method
returns None; when it names a missing path construction raises
FileNotFoundError; a directory raises IsADirectoryError; a malformed
file raises MissingSectionHeaderError; an existing file that parses to
zero sections (an empty file) raises a ParsingError.  No method is ever
served from a malformed file, since construction fails first. -/
theorem file_provider_construction_amended
    (environ : PyDict String) (pathExists pathIsDir : String → Bool)
    (parseIni : String → IniParseResult) :
    (alookup "DBT_CONFIG_FILE" environ = none →
      read_config_file environ pathExists pathIsDir parseIni = .ok none)
    ∧ (∀ v, alookup "DBT_CONFIG_FILE" environ = some v →
        (pyStrip v).data.isEmpty = true →
        read_config_file environ pathExists pathIsDir parseIni = .ok none)
    ∧ (∀ v, alookup "DBT_CONFIG_FILE" environ = some v →
        (pyStrip v).data.isEmpty = false → pathExists (pyStrip v) = false →
        read_config_file environ pathExists pathIsDir parseIni
          = .error .fileNotFound)
    ∧ (∀ v, alookup "DBT_CONFIG_FILE" environ = some v →
        (pyStrip v).data.isEmpty = false → pathExists (pyStrip v) = true →
        pathIsDir (pyStrip v) = true →
        read_config_file environ pathExists pathIsDir parseIni
          = .error .isADirectory)
    ∧ (∀ v, alookup "DBT_CONFIG_FILE" environ = some v →
        (pyStrip v).data.isEmpty = false → pathExists (pyStrip v) = true →
        pathIsDir (pyStrip v) = false →
        parseIni (pyStrip v) = .missingHeader →
        read_config_file environ pathExists pathIsDir parseIni
          = .error .missingSectionHeaders)
    ∧ (∀ v, alookup "DBT_CONFIG_FILE" environ = some v →
        (pyStrip v).data.isEmpty = false → pathExists (pyStrip v) = true →
        pathIsDir (pyStrip v) = false →
        parseIni (pyStrip v) = .parsed [] →
        read_config_file environ pathExists pathIsDir parseIni
          = .error .emptyNoSections)
    ∧ (∀ avail, file_get_allowed_verbs none avail = .ok none
        ∧ file_get_flag_allowlist_apply_global none avail = .ok none
        ∧ file_get_env_variables_apply_global none avail = .ok none
        ∧ file_get_flag_internal_values_apply_global none avail = .ok none
        ∧ file_get_variables_apply_global none avail = .ok none)
    ∧ (∀ avail verb, file_get_flag_allowlist none avail verb = .ok none
        ∧ file_get_flag_internal_values none avail verb = .ok none)
    ∧ (∀ verb, file_get_env_variables none verb = .ok none
        ∧ file_get_variables none verb = .ok none)
    ∧ (∀ pe pd, file_get_projects_root_dir none pe pd = .ok none) := by
  refine ⟨?_, ?_, ?_, ?_, ?_, ?_, ?_, ?_, ?_, ?_⟩
  · intro hnone
    unfold read_config_file
    rw [hnone]
  · intro v hv hblank
    unfold read_config_file
    rw [hv]
    simp [hblank]
  · intro v hv hne hnex
    unfold read_config_file
    rw [hv]
    simp [hne, hnex]
  · intro v hv hne hex hdir
    unfold read_config_file
    rw [hv]
    simp [hne, hex, hdir]
  · intro v hv hne hex hdir hparse
    unfold read_config_file
    rw [hv]
    simp [hne, hex, hdir, hparse]
  · intro v hv hne hex hdir hparse
    unfold read_config_file
    rw [hv]
    simp [hne, hex, hdir, hparse]
  · intro avail
    refine ⟨rfl, rfl, rfl, rfl, rfl⟩
  · intro avail verb
    cases verb <;> exact ⟨rfl, rfl⟩
  · intro verb
    cases verb <;> exact ⟨rfl, rfl⟩
  · intro pe pd
    rfl

/-- Witness for `file_provider_construction_amended`: with
`DBT_CONFIG_FILE` unset, construction yields the no-config provider. -/
theorem file_provider_construction_amended_witness :
    read_config_file [] (fun _ => true) (fun _ => false)
        (fun _ => .parsed []) = .ok none :=
  (file_provider_construction_amended [] (fun _ => true) (fun _ => false)
    (fun _ => .parsed [])).1 rfl

theorem alookup_map_pair_mem {β : Type} (g : String → String) (b : β)
    (l : List String) (x : String) (hx : x ∈ l) :
    alookup (g x) (l.map (fun f => (g f, b))) = some b := by
  induction l with
  | nil => cases hx
  | cons y rest ih =>
    by_cases h : g y = g x
    · simp [alookup, h]
    · have hxr : x ∈ rest := by
        rcases List.mem_cons.mp hx with hxy | hm
        · exact absurd (by rw [hxy]) h
        · exact hm
      simp [alookup, h, ih hxr]

theorem alookup_some_not_isEmpty {α : Type} (k : String) (l : PyDict α)
    (v : α) (h : alookup k l = some v) : l.isEmpty = false := by
  cases l with
  | nil => simp [alookup] at h
  | cons p rest => rfl

/-- Claim C10, counterexample: the enable bit of a sub-allowlist is the
substring test `"ENABLE" in variable`.  For the (hypothetical but
unrestricted) verb `enable`, the DISABLE variable is named
`DBT_ENABLE_DISABLE_FLAGS`, which contains `ENABLE`, so its entries
carry True: a flag listed in both the ENABLE and the DISABLE variable
of that scope ends up mapped to True, not False as the claim states for
every scope. -/
theorem env_allowlist_enable_verb_disable_true :
    env_get_flag_allowlist
        [("DBT_ENABLE_ENABLE_FLAGS", "my-flag"),
         ("DBT_ENABLE_DISABLE_FLAGS", "my-flag")]
        {"my_flag"} (some "enable")
      = .ok (some [("my_flag", true)]) := by
  decide

/-- Claim C10, amended: for every scope whose DISABLE variable name does
not itself contain `ENABLE` (the global scope and every verb whose
upper-cased name does not contain `ENABLE` — all real dbt verbs), a
flag listed in the scope's DISABLE variable ends up mapped to False in
the returned allowlist, regardless of the ENABLE variable: the disable
list is parsed after the enable list and overrides same-key entries. -/
theorem env_allowlist_disable_overrides (environ : PyDict String)
    (available : Finset String) (verb : Option String) (flag : String)
    (r : Option (PyDict Bool)) (dval : String)
    (hvar : strContains (envDisableVar verb) "ENABLE" = false)
    (hd : alookup (envDisableVar verb) environ = some dval)
    (hmem : flag ∈ pySplitChar dval ',')
    (hok : env_get_flag_allowlist environ available verb = .ok r) :
    ∃ al, r = some al ∧ alookup (snakeCaseConv flag) al = some false := by
  unfold env_get_flag_allowlist at hok
  cases hen : parse_sub_allowlist environ available (envEnableVar verb) with
  | error e =>
    rw [hen] at hok
    simp at hok
  | ok enabled =>
    rw [hen] at hok
    cases hdis : parse_sub_allowlist environ available (envDisableVar verb) with
    | error e =>
      rw [hdis] at hok
      simp at hok
    | ok disabled =>
      rw [hdis] at hok
      unfold parse_sub_allowlist at hdis
      rw [hd] at hdis
      by_cases hfmt : flagsListMatch dval
      · simp only [hfmt, Bool.not_true, Bool.false_eq_true, if_false] at hdis
        cases hval : validate_flag_availability available
            (((pySplitChar dval ',').map
              (fun f => (snakeCaseConv f, strContains (envDisableVar verb)
                "ENABLE"))).map Prod.fst) with
        | some errs =>
          rw [hval] at hdis
          simp at hdis
        | none =>
          rw [hval] at hdis
          simp at hdis
          have hlookdis : alookup (snakeCaseConv flag) disabled = some false := by
            rw [← hdis, ← hvar]
            exact alookup_map_pair_mem snakeCaseConv _ _ flag hmem
          have hlook : alookup (snakeCaseConv flag)
              (dictUpdate (dictUpdate [] enabled) disabled) = some false := by
            rw [alookup_dictUpdate, hlookdis]
            rfl
          have hne := alookup_some_not_isEmpty _ _ _ hlook
          simp [hne] at hok
          exact ⟨dictUpdate (dictUpdate [] enabled) disabled, hok.symm, hlook⟩
      · simp only [hfmt] at hdis
        simp at hdis

/-- Witness for `env_allowlist_disable_overrides`: global scope, flag
`foo-bar` in both `DBT_ENABLE_FLAGS` and `DBT_DISABLE_FLAGS`, result
maps `foo_bar` to False. -/
theorem env_allowlist_disable_overrides_witness :
    ∃ al, (some [("foo_bar", false)] : Option (PyDict Bool)) = some al
      ∧ alookup (snakeCaseConv "foo-bar") al = some false :=
  env_allowlist_disable_overrides
    [("DBT_ENABLE_FLAGS", "foo-bar"), ("DBT_DISABLE_FLAGS", "foo-bar")]
    {"foo_bar"} none "foo-bar" (some [("foo_bar", false)]) "foo-bar"
    (by decide) (by decide) (by decide) (by decide)
